import Mathlib

/-!
AuthServiceImpl: request dispatch, chain selection and periodic cleanup

A shallow embedding of `src/service/service_impl.cc`.

`AuthServiceImpl::Check` and `AuthServiceImpl::DoPeriodicCleanup` are written as programs
in a small state-and-exception monad `Prog`.  The state holds the dispatcher object, the
`CheckResponse` of the caller, the chain-scoped collaborator state, and two observation logs:
the collaborator calls that were made (with whether each one raised) and the spdlog lines
that were emitted.  A C++ exception is a value of type `Thrown`; a program ends with a
value, with a thrown exception, or by dereferencing a null pointer, which no `catch` clause
receives (`Abort`).
-/

namespace authservice

/-! ## Status codes -/

/-- Pipeline outcome code `google::rpc::Code`.  It is a protobuf enum, so a value is an
arbitrary integer; only the four enumerators named by `Check` matter here. -/
abbrev Code := Int

/-- Enumerator `google::rpc::Code::OK`. -/
def Code.OK : Code := 0

/-- Enumerator `google::rpc::Code::INVALID_ARGUMENT`. -/
def Code.INVALID_ARGUMENT : Code := 3

/-- Enumerator `google::rpc::Code::PERMISSION_DENIED`. -/
def Code.PERMISSION_DENIED : Code := 7

/-- Enumerator `google::rpc::Code::UNAUTHENTICATED`. -/
def Code.UNAUTHENTICATED : Code := 16

/-- The enumerators of `grpc::StatusCode`. -/
inductive StatusCode where
  | OK
  | CANCELLED
  | UNKNOWN
  | INVALID_ARGUMENT
  | DEADLINE_EXCEEDED
  | NOT_FOUND
  | ALREADY_EXISTS
  | PERMISSION_DENIED
  | UNAUTHENTICATED
  | RESOURCE_EXHAUSTED
  | FAILED_PRECONDITION
  | ABORTED
  | OUT_OF_RANGE
  | UNIMPLEMENTED
  | INTERNAL
  | UNAVAILABLE
  | DATA_LOSS
  | DO_NOT_USE
  deriving DecidableEq, Repr

/-- A `grpc::Status`: a status code and an error message. -/
structure Status where
  code : StatusCode
  message : String
  deriving DecidableEq, Repr

/-- The constant `grpc::Status::OK`. -/
def Status.OK : Status := ⟨StatusCode.OK, ""⟩

/-! ## Exceptions and observations -/

/-- A thrown C++ value: either a `std::exception` (with its `what()` text) or anything
else, which only `catch (...)` receives. -/
inductive Thrown where
  | exception (what : String)
  | unknown
  deriving DecidableEq, Repr

/-- The ways a member function can end without returning: a thrown value travelling up
to the nearest `catch`, or the dereference of a null pointer, which is undefined behaviour
and is not an exception, so no `catch` clause receives it. -/
inductive Abort where
  | thrown (e : Thrown)
  | nullDereference
  deriving DecidableEq, Repr

/-- The collaborator operations `AuthServiceImpl` calls.  A chain is identified by its
position in `chains_`. -/
inductive Callee where
  | Path
  | TriggerRuleMatchesPath
  | Matches (chain : Nat)
  | New (chain : Nat)
  | Process (chain : Nat)
  | DoPeriodicCleanup (chain : Nat)
  deriving DecidableEq, Repr

/-- One collaborator call that was made: which operation, and the value it threw, if it
did not return normally. -/
structure Event where
  callee : Callee
  thrown : Option Thrown
  deriving DecidableEq, Repr

/-- Whether a callee is one of `Matches`, `New`, `Process` of some chain. -/
def Callee.isChainCall : Callee → Bool
  | Callee.Matches _ => true
  | Callee.New _ => true
  | Callee.Process _ => true
  | _ => false

/-- Whether a callee is `New` or `Process` of some chain. -/
def Callee.isNewOrProcess : Callee → Bool
  | Callee.New _ => true
  | Callee.Process _ => true
  | _ => false

/-- The spdlog levels used by `Check`. -/
inductive Level where
  | trace
  | debug
  | error
  deriving DecidableEq, Repr

/-- One emitted spdlog line. -/
structure LogLine where
  level : Level
  text : String
  deriving DecidableEq, Repr

/-- What a call produced: `none` for a normal return, the thrown value otherwise. -/
def thrownOf {α : Type} : Except Thrown α → Option Thrown
  | Except.ok _ => none
  | Except.error e => some e

/-- The outcome of a collaborator call as the caller sees it: its value, or the thrown
value on its way up. -/
def raised {α : Type} : Except Thrown α → Except Abort α
  | Except.ok a => Except.ok a
  | Except.error e => Except.error (Abort.thrown e)

/-! ## Requests and collaborators -/

/-- The part of `envoy::service::auth::v2::CheckRequest` that `Check` reads
(`attributes().request().http()`), with the headers chains may match on. -/
structure CheckRequest where
  scheme : String
  host : String
  path : String
  headers : List (String × String)
  deriving DecidableEq, Repr

/-- Modelled from the spec: the `filters::Filter` interface (`src/filters/filter.h` is not
part of the sources).  `Process(request, response)` returns an outcome code; its side
effects are limited to the response object and chain-scoped collaborator state `W`; it may
raise, and whatever it wrote before raising stays written. -/
structure Filter (Resp W : Type) where
  Process : CheckRequest → Resp → W → Except Thrown Code × Resp × W

/-- Modelled from the spec: the `filters::FilterChain` interface (its header is not part of
the sources).  `Matches(request)` is a pure predicate on the request, `New()` builds a
per-request processor bound to the shared state of the chain, `DoPeriodicCleanup()` sweeps that
state.  Each of them may raise.  What `New()` returns is a pointer to a processor, which
`Check` takes as it comes: `none` is the null pointer. -/
structure FilterChain (Resp W : Type) where
  Name : String
  Matches : CheckRequest → Except Thrown Bool
  New : W → Except Thrown (Option (Filter Resp W)) × W
  DoPeriodicCleanup : W → Except Thrown Unit × W

/-- Modelled from the spec: the two stateless helpers `Check` calls, whose sources
(`src/common/http/http.h`, `src/common/utilities/trigger_rules.h`) are not part of the
sources.  `Path` is `PathQueryFragment(target).Path()`; `TriggerRuleMatchesPath` is the
trigger-rule matcher.  Both are functions of their arguments only, and may raise. -/
structure Helpers (Cfg : Type) where
  Path : String → Except Thrown String
  TriggerRuleMatchesPath : String → Cfg → Except Thrown Bool

/-- The data members of `AuthServiceImpl`: the trigger-rule configuration and the ordered
chain list built by the constructor, one chain per configured chain, in configuration
order.  The constructor fills `chains_` with freshly allocated chains, so no element of it
is null. -/
structure AuthServiceImpl (Cfg Resp W : Type) where
  trigger_rules_config_ : Cfg
  chains_ : List (FilterChain Resp W)

/-- Modelled from the spec: the part of `config::Config` the constructor reads (the
configuration schema is not part of the sources): the trigger rules, the chain
configurations in configuration order, and the thread count. -/
structure Config (Cfg ChainCfg : Type) where
  trigger_rules : Cfg
  chains : List ChainCfg
  threads : Nat

/-- The constructor `AuthServiceImpl::AuthServiceImpl(config)`: it copies the trigger rules
and appends one chain per chain configuration, walking them in order.  `FilterChainImpl` is
the chain constructor, which is not part of the sources. -/
def AuthServiceImpl.create {Cfg ChainCfg Resp W : Type}
    (FilterChainImpl : ChainCfg → Nat → FilterChain Resp W) (config : Config Cfg ChainCfg) :
    AuthServiceImpl Cfg Resp W where
  trigger_rules_config_ := config.trigger_rules
  chains_ := config.chains.foldl
    (fun chains_ chain_config => chains_ ++ [FilterChainImpl chain_config config.threads]) []

/-! ## The program monad -/

/-- Everything a member function of `AuthServiceImpl` can read or write. -/
structure Machine (Cfg Resp W : Type) where
  self : AuthServiceImpl Cfg Resp W
  response : Resp
  world : W
  calls : List Event
  logs : List LogLine

/-- A program: from a machine state to either a value or the way it ended without one, and
the machine state at that point. -/
def Prog (σ α : Type) : Type := σ → Except Abort α × σ

/-- Return a value. -/
def Prog.pure {σ α : Type} (a : α) : Prog σ α := fun s => (Except.ok a, s)

/-- Sequencing: when the first part ends without a value the second is skipped. -/
def Prog.bind {σ α β : Type} (p : Prog σ α) (f : α → Prog σ β) : Prog σ β := fun s =>
  match p s with
  | (Except.ok a, s1) => f a s1
  | (Except.error e, s1) => (Except.error e, s1)

instance (σ : Type) : Monad (Prog σ) where
  pure := Prog.pure
  bind := Prog.bind

/-- A `try` block with its handler for every thrown value (`catch (const std::exception &)`
followed by `catch (...)`): the handler runs from the state the exception left.  A null
dereference is not an exception and passes through. -/
def Prog.tryCatch {σ α : Type} (body : Prog σ α) (handler : Thrown → Prog σ α) :
    Prog σ α := fun s =>
  match body s with
  | (Except.ok a, s1) => (Except.ok a, s1)
  | (Except.error (Abort.thrown e), s1) => handler e s1
  | (Except.error Abort.nullDereference, s1) => (Except.error Abort.nullDereference, s1)

variable {Cfg Resp W : Type}

/-- Emit one spdlog line. -/
def log (level : Level) (text : String) : Prog (Machine Cfg Resp W) Unit := fun s =>
  (Except.ok (), { s with logs := s.logs ++ [⟨level, text⟩] })

/-- Read the dispatcher object (`this`). -/
def getSelf : Prog (Machine Cfg Resp W) (AuthServiceImpl Cfg Resp W) := fun s =>
  (Except.ok s.self, s)

/-- Call a stateless helper and record the call. -/
def callPure {α : Type} (callee : Callee) (r : Except Thrown α) :
    Prog (Machine Cfg Resp W) α := fun s =>
  (raised r, { s with calls := s.calls ++ [⟨callee, thrownOf r⟩] })

/-- Call a chain operation that works on the chain-scoped state, and record the call. -/
def callChain {α : Type} (callee : Callee) (f : W → Except Thrown α × W) :
    Prog (Machine Cfg Resp W) α := fun s =>
  (raised (f s.world).1,
    { s with world := (f s.world).2, calls := s.calls ++ [⟨callee, thrownOf (f s.world).1⟩] })

/-- The statement `processor->Process(request, response)`: it dereferences `processor`
without a check, so a null `processor` ends the program there, before any call; otherwise
it calls `Process` and records the call. -/
def callProcess (chain : Nat) (processor : Option (Filter Resp W)) (request : CheckRequest) :
    Prog (Machine Cfg Resp W) Code := fun s =>
  match processor with
  | none => (Except.error Abort.nullDereference, s)
  | some filter =>
    (raised (filter.Process request s.response s.world).1,
      { s with
        response := (filter.Process request s.response s.world).2.1,
        world := (filter.Process request s.response s.world).2.2,
        calls := s.calls ++
          [⟨Callee.Process chain, thrownOf (filter.Process request s.response s.world).1⟩] })

/-! ## AuthServiceImpl::Check -/

/-- The request URL as the three debug lines print it: `scheme://hostpath`. -/
def requestUrl (request : CheckRequest) : String :=
  request.scheme ++ "://" ++ request.host ++ request.path

/-- The loop `for (auto &chain : chains_)` of `Check`, from the chain at position `i` on.
`some status` is a `return status` from inside the loop; `none` means the loop ran off the
end of the list. -/
def Check.findChain (request : CheckRequest) :
    Nat → List (FilterChain Resp W) → Prog (Machine Cfg Resp W) (Option Status)
  | _, [] => pure none
  | i, chain :: rest => do
    if (← callPure (Callee.Matches i) (chain.Matches request)) then
      log Level.debug
        ("Check: processing request " ++ requestUrl request ++ " with filter chain " ++ chain.Name)
      let processor ← callChain (Callee.New i) chain.New
      let status ← callProcess i processor request
      if status = Code.OK ∨ status = Code.UNAUTHENTICATED ∨ status = Code.PERMISSION_DENIED then
        pure (some Status.OK)
      else if status = Code.INVALID_ARGUMENT then
        pure (some ⟨StatusCode.INVALID_ARGUMENT, "invalid request"⟩)
      else
        pure (some ⟨StatusCode.INTERNAL, "internal error"⟩)
    else
      Check.findChain request (i + 1) rest

/-- The `try` block of `Check`.  It always leaves through a `return`. -/
def Check.tryBlock (helpers : Helpers Cfg) (request : CheckRequest) :
    Prog (Machine Cfg Resp W) Status := do
  let request_path ← callPure Callee.Path (helpers.Path request.path)
  let self ← getSelf
  if !(← callPure Callee.TriggerRuleMatchesPath
        (helpers.TriggerRuleMatchesPath request_path self.trigger_rules_config_)) then
    log Level.debug
      ("Check: no matching trigger rule, so allowing request to proceed without any authservice functionality "
        ++ requestUrl request ++ " ")
    pure Status.OK
  else
    match ← Check.findChain request 0 self.chains_ with
    | some status => pure status
    | none =>
      log Level.debug ("Check: no matching filter chain for request to " ++ requestUrl request ++ " ")
      pure Status.OK

/-- The two `catch` clauses of `Check`: each logs one error line and falls through to
the statement after the `try`. -/
def Check.handler : Thrown → Prog (Machine Cfg Resp W) Unit
  | Thrown.exception what => log Level.error ("Check unexpected error: " ++ what)
  | Thrown.unknown => log Level.error "Check unexpected error: unknown"

/-- `AuthServiceImpl::Check(context, request, response)`. -/
def Check (helpers : Helpers Cfg) (request : CheckRequest) :
    Prog (Machine Cfg Resp W) Status := do
  log Level.trace "Check"
  match ← Prog.tryCatch (do let status ← Check.tryBlock helpers request; pure (some status))
      (fun e => do Check.handler e; pure none) with
  | some status => pure status
  | none => pure ⟨StatusCode.INTERNAL, "internal error"⟩

/-! ## AuthServiceImpl::DoPeriodicCleanup -/

/-- The loop of `DoPeriodicCleanup`, from the chain at position `i` on. -/
def DoPeriodicCleanup.loop : Nat → List (FilterChain Resp W) → Prog (Machine Cfg Resp W) Unit
  | _, [] => pure ()
  | i, chain :: rest => do
    callChain (Callee.DoPeriodicCleanup i) chain.DoPeriodicCleanup
    DoPeriodicCleanup.loop (i + 1) rest

/-- `AuthServiceImpl::DoPeriodicCleanup()`. -/
def DoPeriodicCleanup : Prog (Machine Cfg Resp W) Unit := do
  let self ← getSelf
  DoPeriodicCleanup.loop 0 self.chains_

/-- The machine state on entry to a member function: nothing called or logged yet. -/
def Machine.enter (self : AuthServiceImpl Cfg Resp W) (response : Resp) (world : W) :
    Machine Cfg Resp W :=
  ⟨self, response, world, [], []⟩

/-! ## Auxiliary definitions used to state the results -/

/-- The state after recording a call. -/
def Machine.record (s : Machine Cfg Resp W) (events : List Event) : Machine Cfg Resp W :=
  { s with calls := s.calls ++ events }

/-- The `Matches` calls on the chains at positions `i`, ..., `i + n - 1`, all returning. -/
def matchesCalls (i n : Nat) : List Event :=
  (List.range n).map (fun j => ⟨Callee.Matches (i + j), none⟩)

/-- The error line a `catch` clause of `Check` logs for a thrown value. -/
def errorLine : Thrown → LogLine
  | Thrown.exception what => ⟨Level.error, "Check unexpected error: " ++ what⟩
  | Thrown.unknown => ⟨Level.error, "Check unexpected error: unknown"⟩

/-- The debug line of `Check` for a request no chain matched. -/
def noChainLine (request : CheckRequest) : LogLine :=
  ⟨Level.debug, "Check: no matching filter chain for request to " ++ requestUrl request ++ " "⟩

/-- What `Check` makes of the outcome of its chain loop. -/
def Check.finish (request : CheckRequest) :
    Except Abort (Option Status) × Machine Cfg Resp W → Except Abort Status × Machine Cfg Resp W
  | (Except.ok (some status), s) => (Except.ok status, s)
  | (Except.ok none, s) => (Except.ok Status.OK, { s with logs := s.logs ++ [noChainLine request] })
  | (Except.error (Abort.thrown e), s) =>
    (Except.ok ⟨StatusCode.INTERNAL, "internal error"⟩, { s with logs := s.logs ++ [errorLine e] })
  | (Except.error Abort.nullDereference, s) => (Except.error Abort.nullDereference, s)

/-- The state in which the chain loop of `Check` starts once the gate has let the request
through. -/
def Machine.gated (s : Machine Cfg Resp W) : Machine Cfg Resp W :=
  { s with
    calls := s.calls ++ [⟨Callee.Path, none⟩, ⟨Callee.TriggerRuleMatchesPath, none⟩],
    logs := s.logs ++ [⟨Level.trace, "Check"⟩] }

/-- The outcome-to-decision policy table of the design (section 4.3): success,
unauthenticated and permission-denied give allow; invalid-request gives the client-error
signal; anything else gives the server-error signal. -/
def decisionTable (c : Code) : Status :=
  if c = Code.OK then Status.OK
  else if c = Code.UNAUTHENTICATED then Status.OK
  else if c = Code.PERMISSION_DENIED then Status.OK
  else if c = Code.INVALID_ARGUMENT then ⟨StatusCode.INVALID_ARGUMENT, "invalid request"⟩
  else ⟨StatusCode.INTERNAL, "internal error"⟩

/-- The debug line of `Check` for a request handed to a chain. -/
def processingLine (request : CheckRequest) (name : String) : LogLine :=
  ⟨Level.debug, "Check: processing request " ++ requestUrl request ++ " with filter chain " ++ name⟩

/-- The state the chain loop of `Check` leaves when the chain at position `i` matched and
its `New` returned `processor`, leaving the chain-scoped state `w1`. -/
def Machine.processed (s : Machine Cfg Resp W) (request : CheckRequest) (i : Nat)
    (name : String) (processor : Filter Resp W) (w1 : W) : Machine Cfg Resp W :=
  { s with
    response := (processor.Process request s.response w1).2.1
    world := (processor.Process request s.response w1).2.2
    calls := s.calls ++ [⟨Callee.Matches i, none⟩, ⟨Callee.New i, none⟩,
      ⟨Callee.Process i, thrownOf (processor.Process request s.response w1).1⟩]
    logs := s.logs ++ [processingLine request name] }

/-- No recorded call raised. -/
def allReturned (calls : List Event) : Prop := ∀ ev ∈ calls, ev.thrown = none

/-- The debug line of `Check` for a request the trigger rules do not select. -/
def noTriggerLine (request : CheckRequest) : LogLine :=
  ⟨Level.debug,
    "Check: no matching trigger rule, so allowing request to proceed without any authservice functionality "
      ++ requestUrl request ++ " "⟩

/-- The `DoPeriodicCleanup` calls on the chains at positions `i`, ..., `i + n - 1`, all
returning. -/
def cleanupCalls (i n : Nat) : List Event :=
  (List.range n).map (fun j => ⟨Callee.DoPeriodicCleanup (i + j), none⟩)

/-- Sample helpers: an empty target is malformed; an empty rule list selects every path,
otherwise the path has to be listed. -/
def sampleHelpers : Helpers (List String) where
  Path := fun target =>
    if target = "" then Except.error (Thrown.exception "malformed target") else Except.ok target
  TriggerRuleMatchesPath := fun path rules => Except.ok (rules.isEmpty || rules.contains path)

/-- A processor that answers `c` and adds one header to the response. -/
def sampleFilter (c : Code) : Filter Nat Nat where
  Process := fun _ response world => (Except.ok c, response + 1, world)

/-- A processor that raises a value that is not a `std::exception`. -/
def raisingFilter : Filter Nat Nat where
  Process := fun _ response world => (Except.error Thrown.unknown, response, world)

/-- A chain selected by the request host.  The chain-scoped state counts live sessions:
`New` opens one, the cleanup hook drops them all and ends as `cleanup` says. -/
def hostChain (name host : String) (processor : Filter Nat Nat) (cleanup : Except Thrown Unit) :
    FilterChain Nat Nat where
  Name := name
  Matches := fun request => Except.ok (request.host == host)
  New := fun world => (Except.ok (some processor), world + 1)
  DoPeriodicCleanup := fun _ => (cleanup, 0)

/-- A request for `https://host/path`. -/
def sampleRequest (host path : String) : CheckRequest := ⟨"https", host, path, []⟩

/-- Two chains, no trigger rules. -/
def sampleService : AuthServiceImpl (List String) Nat Nat where
  trigger_rules_config_ := []
  chains_ :=
    [hostChain "api" "api.example" (sampleFilter Code.OK) (Except.ok ()),
     hostChain "web" "web.example" (sampleFilter Code.INVALID_ARGUMENT) (Except.ok ())]

/-- Two chains that both accept `any.example`, behind a trigger rule for `/login`. -/
def overlappingService : AuthServiceImpl (List String) Nat Nat where
  trigger_rules_config_ := ["/login"]
  chains_ :=
    [hostChain "first" "any.example" (sampleFilter Code.UNAUTHENTICATED) (Except.ok ()),
     hostChain "second" "any.example" (sampleFilter 13) (Except.ok ())]

/-- Two chains; the processor of the first raises, and so does its cleanup hook. -/
def faultyService : AuthServiceImpl (List String) Nat Nat where
  trigger_rules_config_ := []
  chains_ :=
    [hostChain "api" "api.example" raisingFilter
       (Except.error (Thrown.exception "session store unreachable")),
     hostChain "web" "web.example" (sampleFilter Code.OK) (Except.ok ())]

/-- The constructor keeps configuration order: the chain at position `j` of `chains_` is
the one built from the chain configuration at position `j`. -/
theorem create_chains {ChainCfg : Type} (FilterChainImpl : ChainCfg → Nat → FilterChain Resp W)
    (config : Config Cfg ChainCfg) :
    (AuthServiceImpl.create FilterChainImpl config).chains_
      = config.chains.map (fun chain_config => FilterChainImpl chain_config config.threads) := by
  have h : ∀ (l : List ChainCfg) (acc : List (FilterChain Resp W)),
      l.foldl (fun chains_ chain_config => chains_ ++ [FilterChainImpl chain_config config.threads])
          acc
        = acc ++ l.map (fun chain_config => FilterChainImpl chain_config config.threads) := by
    intro l
    induction l with
    | nil => intro acc; simp
    | cons x xs ih => intro acc; simp [ih]
  simp [AuthServiceImpl.create, h]

theorem matchesCalls_succ (i n : Nat) :
    matchesCalls i (n + 1) = ⟨Callee.Matches i, none⟩ :: matchesCalls (i + 1) n := by
  simp [matchesCalls, List.range_succ_eq_map, Nat.add_assoc, Nat.add_comm 1]

theorem findChain_nil (request : CheckRequest) (i : Nat) (s : Machine Cfg Resp W) :
    Check.findChain request i ([] : List (FilterChain Resp W)) s = (Except.ok none, s) := by
  simp [Check.findChain, pure, Prog.pure]

theorem findChain_miss (request : CheckRequest) (chain : FilterChain Resp W)
    (rest : List (FilterChain Resp W)) (i : Nat) (s : Machine Cfg Resp W)
    (hmatch : chain.Matches request = Except.ok false) :
    Check.findChain request i (chain :: rest) s
      = Check.findChain request (i + 1) rest (s.record [⟨Callee.Matches i, none⟩]) := by
  simp [Check.findChain, bind, Prog.bind, callPure, hmatch, thrownOf, raised, Machine.record]

theorem findChain_matches_raises (request : CheckRequest) (chain : FilterChain Resp W)
    (rest : List (FilterChain Resp W)) (i : Nat) (s : Machine Cfg Resp W) (e : Thrown)
    (hmatch : chain.Matches request = Except.error e) :
    Check.findChain request i (chain :: rest) s
      = (Except.error (Abort.thrown e), s.record [⟨Callee.Matches i, some e⟩]) := by
  simp [Check.findChain, bind, Prog.bind, callPure, hmatch, thrownOf, raised, Machine.record]

theorem findChain_skip (request : CheckRequest) (pre rest : List (FilterChain Resp W))
    (hpre : ∀ x ∈ pre, x.Matches request = Except.ok false) :
    ∀ (i : Nat) (s : Machine Cfg Resp W),
      Check.findChain request i (pre ++ rest) s
        = Check.findChain request (i + pre.length) rest (s.record (matchesCalls i pre.length)) := by
  induction pre with
  | nil => intro i s; simp [matchesCalls, Machine.record]
  | cons x xs ih =>
    intro i s
    have hx : x.Matches request = Except.ok false := hpre x (by simp)
    have hxs : ∀ y ∈ xs, y.Matches request = Except.ok false := fun y hy => hpre y (by simp [hy])
    rw [List.cons_append, findChain_miss request x (xs ++ rest) i s hx, ih hxs]
    simp [matchesCalls_succ, Machine.record, Nat.add_assoc, Nat.add_comm 1]

theorem findChain_hit_new_raises (request : CheckRequest) (chain : FilterChain Resp W)
    (post : List (FilterChain Resp W)) (i : Nat) (s : Machine Cfg Resp W) (e : Thrown) (w1 : W)
    (hmatch : chain.Matches request = Except.ok true)
    (hnew : chain.New s.world = (Except.error e, w1)) :
    Check.findChain request i (chain :: post) s
      = (Except.error (Abort.thrown e),
          { s with
            world := w1
            calls := s.calls ++ [⟨Callee.Matches i, none⟩, ⟨Callee.New i, some e⟩]
            logs := s.logs ++ [processingLine request chain.Name] }) := by
  simp [Check.findChain, bind, Prog.bind, callPure, callChain, log, hmatch, hnew, thrownOf,
    raised, processingLine]

theorem findChain_hit_null (request : CheckRequest) (chain : FilterChain Resp W)
    (post : List (FilterChain Resp W)) (i : Nat) (s : Machine Cfg Resp W) (w1 : W)
    (hmatch : chain.Matches request = Except.ok true)
    (hnew : chain.New s.world = (Except.ok none, w1)) :
    Check.findChain request i (chain :: post) s
      = (Except.error Abort.nullDereference,
          { s with
            world := w1
            calls := s.calls ++ [⟨Callee.Matches i, none⟩, ⟨Callee.New i, none⟩]
            logs := s.logs ++ [processingLine request chain.Name] }) := by
  simp [Check.findChain, bind, Prog.bind, callPure, callChain, callProcess, log, hmatch, hnew,
    thrownOf, raised, processingLine]

theorem findChain_hit (request : CheckRequest) (chain : FilterChain Resp W)
    (post : List (FilterChain Resp W)) (i : Nat) (s : Machine Cfg Resp W)
    (processor : Filter Resp W) (w1 : W)
    (hmatch : chain.Matches request = Except.ok true)
    (hnew : chain.New s.world = (Except.ok (some processor), w1)) :
    Check.findChain request i (chain :: post) s
      = ((raised (processor.Process request s.response w1).1).map
            (fun c => some (decisionTable c)),
          s.processed request i chain.Name processor w1) := by
  rcases hp : processor.Process request s.response w1 with ⟨r, resp1, w2⟩
  rcases r with e | c
  · simp [Check.findChain, bind, Prog.bind, callPure, callChain, callProcess, log, hmatch, hnew,
      hp, thrownOf, raised, processingLine, Except.map, Machine.processed]
  · by_cases h0 : c = Code.OK
    · simp [Check.findChain, bind, Prog.bind, callPure, callChain, callProcess, log, hmatch,
        hnew, hp, thrownOf, raised, processingLine, Except.map, decisionTable, pure, Prog.pure,
        Machine.processed, h0]
    · by_cases h1 : c = Code.UNAUTHENTICATED
      · simp [Check.findChain, bind, Prog.bind, callPure, callChain, callProcess, log, hmatch,
          hnew, hp, thrownOf, raised, processingLine, Except.map, decisionTable, pure,
          Prog.pure, Machine.processed, h0, h1]
      · by_cases h2 : c = Code.PERMISSION_DENIED
        · simp [Check.findChain, bind, Prog.bind, callPure, callChain, callProcess, log, hmatch,
            hnew, hp, thrownOf, raised, processingLine, Except.map, decisionTable, pure,
            Prog.pure, Machine.processed, h0, h1, h2]
        · by_cases h3 : c = Code.INVALID_ARGUMENT
          · subst h3
            simp [Check.findChain, bind, Prog.bind, callPure, callChain, callProcess, log,
              hmatch, hnew, hp, thrownOf, raised, processingLine, Except.map, decisionTable,
              pure, Prog.pure, Machine.processed, h0, h1, h2]
          · simp [Check.findChain, bind, Prog.bind, callPure, callChain, callProcess, log,
              hmatch, hnew, hp, thrownOf, raised, processingLine, Except.map, decisionTable,
              pure, Prog.pure, Machine.processed, h0, h1, h2, h3]

/-- The five ways one round of the chain loop of `Check` can go. -/
theorem findChain_cons_cases (request : CheckRequest) (chain : FilterChain Resp W)
    (rest : List (FilterChain Resp W)) (i : Nat) (s : Machine Cfg Resp W) :
    (∃ e, Check.findChain request i (chain :: rest) s
        = (Except.error (Abort.thrown e), s.record [⟨Callee.Matches i, some e⟩]))
    ∨ (Check.findChain request i (chain :: rest) s
        = Check.findChain request (i + 1) rest (s.record [⟨Callee.Matches i, none⟩]))
    ∨ (∃ e w1, Check.findChain request i (chain :: rest) s
        = (Except.error (Abort.thrown e),
            { s with
              world := w1
              calls := s.calls ++ [⟨Callee.Matches i, none⟩, ⟨Callee.New i, some e⟩]
              logs := s.logs ++ [processingLine request chain.Name] }))
    ∨ (∃ w1, chain.New s.world = (Except.ok none, w1)
        ∧ Check.findChain request i (chain :: rest) s
          = (Except.error Abort.nullDereference,
              { s with
                world := w1
                calls := s.calls ++ [⟨Callee.Matches i, none⟩, ⟨Callee.New i, none⟩]
                logs := s.logs ++ [processingLine request chain.Name] }))
    ∨ (∃ processor w1, Check.findChain request i (chain :: rest) s
        = ((raised (processor.Process request s.response w1).1).map
              (fun c => some (decisionTable c)),
            s.processed request i chain.Name processor w1)) := by
  rcases hm : chain.Matches request with e | b
  · exact Or.inl ⟨e, findChain_matches_raises request chain rest i s e hm⟩
  · cases b with
    | false => exact Or.inr (Or.inl (findChain_miss request chain rest i s hm))
    | true =>
      rcases hn : chain.New s.world with ⟨r, w1⟩
      rcases r with e | o
      · exact Or.inr (Or.inr (Or.inl
          ⟨e, w1, findChain_hit_new_raises request chain rest i s e w1 hm hn⟩))
      · cases o with
        | none =>
          exact Or.inr (Or.inr (Or.inr (Or.inl
            ⟨w1, rfl, findChain_hit_null request chain rest i s w1 hm hn⟩)))
        | some processor =>
          exact Or.inr (Or.inr (Or.inr (Or.inr
            ⟨processor, w1, findChain_hit request chain rest i s processor w1 hm hn⟩)))

theorem findChain_self (request : CheckRequest) (chains : List (FilterChain Resp W)) :
    ∀ (i : Nat) (s : Machine Cfg Resp W),
      (Check.findChain request i chains s).2.self = s.self := by
  induction chains with
  | nil => intro i s; simp [findChain_nil]
  | cons chain rest ih =>
    intro i s
    rcases findChain_cons_cases request chain rest i s
      with ⟨e, h⟩ | h | ⟨e, w1, h⟩ | ⟨w1, _, h⟩ | ⟨p, w1, h⟩
    · simp [h, Machine.record]
    · rw [h, ih]; simp [Machine.record]
    · simp [h]
    · simp [h]
    · simp [h, Machine.processed]

/-- Unless the chain loop of `Check` ends with a thrown exception, none of the calls it
made raised. -/
theorem findChain_returned (request : CheckRequest) (chains : List (FilterChain Resp W)) :
    ∀ (i : Nat) (s : Machine Cfg Resp W),
      (∀ e, (Check.findChain request i chains s).1 ≠ Except.error (Abort.thrown e)) →
        allReturned s.calls → allReturned (Check.findChain request i chains s).2.calls := by
  induction chains with
  | nil => intro i s; simp [findChain_nil]
  | cons chain rest ih =>
    intro i s
    rcases findChain_cons_cases request chain rest i s
      with ⟨e, h⟩ | h | ⟨e, w1, h⟩ | ⟨w1, _, h⟩ | ⟨p, w1, h⟩
    · intro hne
      exact absurd (by rw [h]) (hne e)
    · rw [h]
      intro hne hs
      refine ih _ _ hne ?_
      intro ev hev
      simp [Machine.record] at hev
      rcases hev with hev | hev
      · exact hs ev hev
      · simp [hev]
    · intro hne
      exact absurd (by rw [h]) (hne e)
    · rw [h]
      intro _ hs ev hev
      simp at hev
      rcases hev with hev | hev | hev
      · exact hs ev hev
      · simp [hev]
      · simp [hev]
    · rw [h]
      rcases hp : (p.Process request s.response w1).1 with e | c
      · intro hne
        exact absurd (by simp [Except.map, raised]) (hne e)
      · intro _ hs ev hev
        simp [Machine.processed, hp, thrownOf] at hev
        rcases hev with hev | hev | hev | hev
        · exact hs ev hev
        · simp [hev]
        · simp [hev]
        · simp [hev]

theorem Check_gate_pass (helpers : Helpers Cfg) (request : CheckRequest)
    (s : Machine Cfg Resp W) (path : String)
    (hpath : helpers.Path request.path = Except.ok path)
    (htrig : helpers.TriggerRuleMatchesPath path s.self.trigger_rules_config_ = Except.ok true) :
    Check helpers request s
      = Check.finish request (Check.findChain request 0 s.self.chains_ s.gated) := by
  simp only [Check, Check.tryBlock, bind, Prog.bind, pure, Prog.pure, Prog.tryCatch, log, callPure,
    getSelf, hpath, htrig, thrownOf, raised, Machine.gated]
  simp
  rcases h : Check.findChain request 0 s.self.chains_ _ with ⟨r, s2⟩
  rcases r with a | o
  · cases a with
    | thrown e =>
      cases e <;> simp [Check.finish, Check.handler, errorLine, log, h, Prog.bind, Prog.pure]
    | nullDereference => simp [Check.finish, h, Prog.bind, Prog.pure]
  · cases o <;> simp [Check.finish, noChainLine, log, h, Prog.bind, Prog.pure]

theorem Check_path_raises (helpers : Helpers Cfg) (request : CheckRequest)
    (s : Machine Cfg Resp W) (e : Thrown)
    (hpath : helpers.Path request.path = Except.error e) :
    Check helpers request s
      = (Except.ok ⟨StatusCode.INTERNAL, "internal error"⟩,
          { s with
            calls := s.calls ++ [⟨Callee.Path, some e⟩]
            logs := s.logs ++ [⟨Level.trace, "Check"⟩, errorLine e] }) := by
  cases e <;>
  simp [Check, Check.tryBlock, Check.handler, Prog.tryCatch, bind, Prog.bind, pure, Prog.pure,
    log, callPure, getSelf, hpath, thrownOf, raised, errorLine]

theorem Check_trigger_raises (helpers : Helpers Cfg) (request : CheckRequest)
    (s : Machine Cfg Resp W) (path : String) (e : Thrown)
    (hpath : helpers.Path request.path = Except.ok path)
    (htrig : helpers.TriggerRuleMatchesPath path s.self.trigger_rules_config_ = Except.error e) :
    Check helpers request s
      = (Except.ok ⟨StatusCode.INTERNAL, "internal error"⟩,
          { s with
            calls := s.calls ++ [⟨Callee.Path, none⟩, ⟨Callee.TriggerRuleMatchesPath, some e⟩]
            logs := s.logs ++ [⟨Level.trace, "Check"⟩, errorLine e] }) := by
  cases e <;>
  simp [Check, Check.tryBlock, Check.handler, Prog.tryCatch, bind, Prog.bind, pure, Prog.pure,
    log, callPure, getSelf, hpath, htrig, thrownOf, raised, errorLine]

theorem Check_gate_stop (helpers : Helpers Cfg) (request : CheckRequest)
    (s : Machine Cfg Resp W) (path : String)
    (hpath : helpers.Path request.path = Except.ok path)
    (htrig : helpers.TriggerRuleMatchesPath path s.self.trigger_rules_config_ = Except.ok false) :
    Check helpers request s
      = (Except.ok Status.OK,
          { s with
            calls := s.calls ++ [⟨Callee.Path, none⟩, ⟨Callee.TriggerRuleMatchesPath, none⟩]
            logs := s.logs ++ [⟨Level.trace, "Check"⟩, noTriggerLine request] }) := by
  simp [Check, Check.tryBlock, Check.handler, Prog.tryCatch, bind, Prog.bind, pure, Prog.pure,
    log, callPure, getSelf, hpath, htrig, thrownOf, raised, noTriggerLine]

/-- The four ways the gate of `Check` can go. -/
theorem Check_cases (helpers : Helpers Cfg) (request : CheckRequest) (s : Machine Cfg Resp W) :
    (∃ e, Check helpers request s
        = (Except.ok ⟨StatusCode.INTERNAL, "internal error"⟩,
            { s with
              calls := s.calls ++ [⟨Callee.Path, some e⟩]
              logs := s.logs ++ [⟨Level.trace, "Check"⟩, errorLine e] }))
    ∨ (∃ e, Check helpers request s
        = (Except.ok ⟨StatusCode.INTERNAL, "internal error"⟩,
            { s with
              calls := s.calls ++ [⟨Callee.Path, none⟩, ⟨Callee.TriggerRuleMatchesPath, some e⟩]
              logs := s.logs ++ [⟨Level.trace, "Check"⟩, errorLine e] }))
    ∨ (Check helpers request s
        = (Except.ok Status.OK,
            { s with
              calls := s.calls ++ [⟨Callee.Path, none⟩, ⟨Callee.TriggerRuleMatchesPath, none⟩]
              logs := s.logs ++ [⟨Level.trace, "Check"⟩, noTriggerLine request] }))
    ∨ (Check helpers request s
        = Check.finish request (Check.findChain request 0 s.self.chains_ s.gated)) := by
  rcases hp : helpers.Path request.path with e | path
  · exact Or.inl ⟨e, Check_path_raises helpers request s e hp⟩
  · rcases ht : helpers.TriggerRuleMatchesPath path s.self.trigger_rules_config_ with e | b
    · exact Or.inr (Or.inl ⟨e, Check_trigger_raises helpers request s path e hp ht⟩)
    · cases b with
      | false => exact Or.inr (Or.inr (Or.inl (Check_gate_stop helpers request s path hp ht)))
      | true => exact Or.inr (Or.inr (Or.inr (Check_gate_pass helpers request s path hp ht)))

theorem finish_calls (request : CheckRequest)
    (r : Except Abort (Option Status) × Machine Cfg Resp W) :
    (Check.finish request r).2.calls = r.2.calls
      ∧ (Check.finish request r).2.response = r.2.response
      ∧ (Check.finish request r).2.world = r.2.world
      ∧ (Check.finish request r).2.self = r.2.self := by
  rcases r with ⟨r, s⟩
  rcases r with a | o
  · cases a <;> simp [Check.finish]
  · cases o <;> simp [Check.finish]

theorem finish_error (request : CheckRequest) (e : Thrown) (s : Machine Cfg Resp W) :
    (Check.finish request (Except.error (Abort.thrown e), s)).1
      = Except.ok ⟨StatusCode.INTERNAL, "internal error"⟩ := by
  simp [Check.finish]

/-- Whenever a collaborator call made by `Check` raised, `Check` answers INTERNAL. -/
theorem Check_raised (helpers : Helpers Cfg) (request : CheckRequest) (s : Machine Cfg Resp W)
    (hs : allReturned s.calls) (ev : Event)
    (hev : ev ∈ (Check helpers request s).2.calls) (hraised : ev.thrown ≠ none) :
    (Check helpers request s).1 = Except.ok ⟨StatusCode.INTERNAL, "internal error"⟩ := by
  rcases Check_cases helpers request s with ⟨e, h⟩ | ⟨e, h⟩ | h | h
  · simp [h]
  · simp [h]
  · rw [h] at hev
    simp at hev
    rcases hev with hev | hev | hev
    · exact absurd (hs ev hev) hraised
    · simp [hev] at hraised
    · simp [hev] at hraised
  · rw [h] at hev ⊢
    rw [(finish_calls request _).1] at hev
    by_cases hthrown : ∃ e, (Check.findChain request 0 s.self.chains_ s.gated).1
        = Except.error (Abort.thrown e)
    · rcases hthrown with ⟨e, hr⟩
      have : Check.findChain request 0 s.self.chains_ s.gated
          = (Except.error (Abort.thrown e),
              (Check.findChain request 0 s.self.chains_ s.gated).2) := by
        rw [← hr]
      rw [this]
      exact finish_error request e _
    · have hg : allReturned s.gated.calls := by
        intro x hx
        simp [Machine.gated] at hx
        rcases hx with hx | hx | hx
        · exact hs x hx
        · simp [hx]
        · simp [hx]
      have hne : ∀ e, (Check.findChain request 0 s.self.chains_ s.gated).1
          ≠ Except.error (Abort.thrown e) := fun e he => hthrown ⟨e, he⟩
      exact absurd (findChain_returned request _ 0 s.gated hne hg ev hev) hraised

theorem cleanupCalls_succ (i n : Nat) :
    cleanupCalls i (n + 1) = ⟨Callee.DoPeriodicCleanup i, none⟩ :: cleanupCalls (i + 1) n := by
  simp [cleanupCalls, List.range_succ_eq_map, Nat.add_assoc, Nat.add_comm 1]

theorem cleanup_loop_hit (chain : FilterChain Resp W) (rest : List (FilterChain Resp W))
    (i : Nat) (s : Machine Cfg Resp W) (h : (chain.DoPeriodicCleanup s.world).1 = Except.ok ()) :
    DoPeriodicCleanup.loop i (chain :: rest) s
      = DoPeriodicCleanup.loop (i + 1) rest
          { s with
            world := (chain.DoPeriodicCleanup s.world).2
            calls := s.calls ++ [⟨Callee.DoPeriodicCleanup i, none⟩] } := by
  simp [DoPeriodicCleanup.loop, bind, Prog.bind, callChain, h, thrownOf, raised]

theorem cleanup_loop_raises (chain : FilterChain Resp W) (rest : List (FilterChain Resp W))
    (i : Nat) (s : Machine Cfg Resp W) (e : Thrown)
    (h : (chain.DoPeriodicCleanup s.world).1 = Except.error e) :
    DoPeriodicCleanup.loop i (chain :: rest) s
      = (Except.error (Abort.thrown e),
          { s with
            world := (chain.DoPeriodicCleanup s.world).2
            calls := s.calls ++ [⟨Callee.DoPeriodicCleanup i, some e⟩] }) := by
  simp [DoPeriodicCleanup.loop, bind, Prog.bind, callChain, h, thrownOf, raised]

/-- The two ways the cleanup loop can end: every hook returned, or the hook at some
position raised and the loop stopped there. -/
theorem cleanup_loop_cases (chains : List (FilterChain Resp W)) :
    ∀ (i : Nat) (s : Machine Cfg Resp W),
      ((DoPeriodicCleanup.loop i chains s).1 = Except.ok ()
        ∧ (DoPeriodicCleanup.loop i chains s).2.calls = s.calls ++ cleanupCalls i chains.length)
      ∨ (∃ k e, k < chains.length
        ∧ (DoPeriodicCleanup.loop i chains s).1 = Except.error (Abort.thrown e)
        ∧ (DoPeriodicCleanup.loop i chains s).2.calls
            = s.calls ++ (cleanupCalls i k ++ [⟨Callee.DoPeriodicCleanup (i + k), some e⟩])) := by
  induction chains with
  | nil => intro i s; simp [DoPeriodicCleanup.loop, pure, Prog.pure, cleanupCalls]
  | cons chain rest ih =>
    intro i s
    rcases h : (chain.DoPeriodicCleanup s.world).1 with e | u
    · refine Or.inr ⟨0, e, by simp, ?_⟩
      simp [cleanup_loop_raises chain rest i s e h, cleanupCalls]
    · rw [cleanup_loop_hit chain rest i s h]
      rcases ih (i + 1) { s with
            world := (chain.DoPeriodicCleanup s.world).2
            calls := s.calls ++ [⟨Callee.DoPeriodicCleanup i, none⟩] } with ⟨h1, h2⟩ | ⟨k, e, hk, h1, h2⟩
      · exact Or.inl ⟨h1, by simp [h2, cleanupCalls_succ]⟩
      · refine Or.inr ⟨k + 1, e, by simpa using hk, h1, ?_⟩
        simp [h2, cleanupCalls_succ, Nat.add_assoc, Nat.add_comm 1]

theorem cleanupCalls_thrown (i n : Nat) (ev : Event) (h : ev ∈ cleanupCalls i n) :
    ev.thrown = none := by
  simp [cleanupCalls] at h
  rcases h with ⟨j, _, rfl⟩
  rfl

theorem DoPeriodicCleanup_run (s : Machine Cfg Resp W) :
    DoPeriodicCleanup s = DoPeriodicCleanup.loop 0 s.self.chains_ s := by
  simp [DoPeriodicCleanup, bind, Prog.bind, getSelf]

theorem findChain_none (request : CheckRequest) (chains : List (FilterChain Resp W))
    (hno : ∀ x ∈ chains, x.Matches request = Except.ok false) (i : Nat)
    (s : Machine Cfg Resp W) :
    Check.findChain request i chains s
      = (Except.ok none, s.record (matchesCalls i chains.length)) := by
  have h := findChain_skip request chains [] hno i s
  simp only [List.append_nil] at h
  rw [h, findChain_nil]

/-- The run of `Check` on a request that passes the gate and that no chain accepts. -/
theorem Check_no_match (helpers : Helpers Cfg) (request : CheckRequest)
    (s : Machine Cfg Resp W) (path : String)
    (hpath : helpers.Path request.path = Except.ok path)
    (htrig : helpers.TriggerRuleMatchesPath path s.self.trigger_rules_config_ = Except.ok true)
    (hno : ∀ x ∈ s.self.chains_, x.Matches request = Except.ok false) :
    Check helpers request s
      = (Except.ok Status.OK,
          { s with
            calls := s.calls ++ ([⟨Callee.Path, none⟩, ⟨Callee.TriggerRuleMatchesPath, none⟩]
              ++ matchesCalls 0 s.self.chains_.length)
            logs := s.logs ++ [⟨Level.trace, "Check"⟩, noChainLine request] }) := by
  rw [Check_gate_pass helpers request s path hpath htrig, findChain_none request _ hno]
  simp [Check.finish, Machine.record, Machine.gated]

/-- The run of `Check` on a request that passes the gate, when `chain` is the first chain
that accepts it and `New` of that chain returns `processor`. -/
theorem Check_first_match (helpers : Helpers Cfg) (request : CheckRequest)
    (s : Machine Cfg Resp W) (path : String)
    (pre post : List (FilterChain Resp W)) (chain : FilterChain Resp W)
    (processor : Filter Resp W) (w1 : W)
    (hpath : helpers.Path request.path = Except.ok path)
    (htrig : helpers.TriggerRuleMatchesPath path s.self.trigger_rules_config_ = Except.ok true)
    (hchains : s.self.chains_ = pre ++ chain :: post)
    (hpre : ∀ x ∈ pre, x.Matches request = Except.ok false)
    (hmatch : chain.Matches request = Except.ok true)
    (hnew : chain.New s.world = (Except.ok (some processor), w1)) :
    Check helpers request s
      = Check.finish request
          ((raised (processor.Process request s.response w1).1).map
              (fun c => some (decisionTable c)),
            (s.gated.record (matchesCalls 0 pre.length)).processed request pre.length
              chain.Name processor w1) := by
  rw [Check_gate_pass helpers request s path hpath htrig, hchains,
    findChain_skip request pre (chain :: post) hpre 0 s.gated]
  have hnew1 : chain.New (s.gated.record (matchesCalls 0 pre.length)).world
      = (Except.ok (some processor), w1) := by
    simpa [Machine.gated, Machine.record] using hnew
  rw [Nat.zero_add, findChain_hit request chain post pre.length _ processor w1 hmatch hnew1]
  simp [Machine.processed, Machine.gated, Machine.record]

/-- Where the response `Check.findChain` leaves can come from: it is the one it found, or
the one left by `Process` of the processor of the first chain that accepts the request. -/
theorem findChain_origin (request : CheckRequest) (chains : List (FilterChain Resp W)) :
    ∀ (i : Nat) (s : Machine Cfg Resp W),
      (Check.findChain request i chains s).2.response = s.response
      ∨ ∃ pre chain post processor w1,
          chains = pre ++ chain :: post
          ∧ (∀ x ∈ pre, x.Matches request = Except.ok false)
          ∧ chain.Matches request = Except.ok true
          ∧ chain.New s.world = (Except.ok (some processor), w1)
          ∧ (Check.findChain request i chains s).2.response
              = (processor.Process request s.response w1).2.1 := by
  induction chains with
  | nil => intro i s; simp [findChain_nil]
  | cons chain rest ih =>
    intro i s
    rcases hm : chain.Matches request with e | b
    · left
      simp [findChain_matches_raises request chain rest i s e hm, Machine.record]
    · cases b with
      | false =>
        rw [findChain_miss request chain rest i s hm]
        rcases ih (i + 1) (s.record [⟨Callee.Matches i, none⟩]) with h | ⟨pre, c, post, p, w1, h1, h2, h3, h4, h5⟩
        · left
          simpa [Machine.record] using h
        · right
          refine ⟨chain :: pre, c, post, p, w1, by simp [h1], ?_, h3, ?_, ?_⟩
          · intro x hx
            simp at hx
            rcases hx with hx | hx
            · rw [hx]; exact hm
            · exact h2 x hx
          · simpa [Machine.record] using h4
          · simpa [Machine.record] using h5
      | true =>
        rcases hn : chain.New s.world with ⟨r, w1⟩
        rcases r with e | o
        · left
          simp [findChain_hit_new_raises request chain rest i s e w1 hm hn]
        · cases o with
          | none =>
            left
            simp [findChain_hit_null request chain rest i s w1 hm hn]
          | some processor =>
            right
            refine ⟨[], chain, rest, processor, w1, by simp, by simp, hm, hn, ?_⟩
            simp [findChain_hit request chain rest i s processor w1 hm hn, Machine.processed]

/-! ## Outcome translation and chain selection -/

/-- C1. When the request passes the trigger-rule gate, `chain` is the first configured
chain whose `Matches` accepts it, and the processor of that chain returns the outcome code
`c` from `Process`, then `Check` returns grpc OK if `c` is OK, UNAUTHENTICATED or
PERMISSION_DENIED, INVALID_ARGUMENT with message "invalid request" if `c` is
INVALID_ARGUMENT, and INTERNAL with message "internal error" for every other integer `c`;
in particular a returned OK means `c` was one of the first three codes. -/
theorem Check_outcome_code_mapping (helpers : Helpers Cfg) (self : AuthServiceImpl Cfg Resp W)
    (request : CheckRequest) (response : Resp) (world : W) (path : String)
    (pre post : List (FilterChain Resp W)) (chain : FilterChain Resp W)
    (processor : Filter Resp W) (w1 w2 : W) (response1 : Resp) (c : Code)
    (hpath : helpers.Path request.path = Except.ok path)
    (htrig : helpers.TriggerRuleMatchesPath path self.trigger_rules_config_ = Except.ok true)
    (hchains : self.chains_ = pre ++ chain :: post)
    (hpre : ∀ x ∈ pre, x.Matches request = Except.ok false)
    (hmatch : chain.Matches request = Except.ok true)
    (hnew : chain.New world = (Except.ok (some processor), w1))
    (hproc : processor.Process request response w1 = (Except.ok c, response1, w2)) :
    (c = Code.OK ∨ c = Code.UNAUTHENTICATED ∨ c = Code.PERMISSION_DENIED →
        (Check helpers request (Machine.enter self response world)).1
          = Except.ok ⟨StatusCode.OK, ""⟩)
    ∧ (c = Code.INVALID_ARGUMENT →
        (Check helpers request (Machine.enter self response world)).1
          = Except.ok ⟨StatusCode.INVALID_ARGUMENT, "invalid request"⟩)
    ∧ (c ≠ Code.OK → c ≠ Code.UNAUTHENTICATED → c ≠ Code.PERMISSION_DENIED →
        c ≠ Code.INVALID_ARGUMENT →
        (Check helpers request (Machine.enter self response world)).1
          = Except.ok ⟨StatusCode.INTERNAL, "internal error"⟩)
    ∧ (∀ status, (Check helpers request (Machine.enter self response world)).1
          = Except.ok status → status.code = StatusCode.OK →
        c = Code.OK ∨ c = Code.UNAUTHENTICATED ∨ c = Code.PERMISSION_DENIED) := by
  have hrun : (Check helpers request (Machine.enter self response world)).1
      = Except.ok (decisionTable c) := by
    rw [Check_first_match helpers request (Machine.enter self response world) path pre post
      chain processor w1 hpath htrig hchains hpre hmatch hnew]
    simp [Machine.enter, hproc, Except.map, raised, Check.finish]
  rw [hrun]
  refine ⟨?_, ?_, ?_, ?_⟩
  · rintro (h | h | h) <;> simp [decisionTable, h, Status.OK]
  · intro h
    subst h
    simp [decisionTable, Code.INVALID_ARGUMENT, Code.OK, Code.UNAUTHENTICATED,
      Code.PERMISSION_DENIED]
  · intro h0 h1 h2 h3
    simp [decisionTable, h0, h1, h2, h3]
  · intro status hst hcode
    simp at hst
    rw [← hst] at hcode
    by_contra hnot
    simp only [not_or] at hnot
    rcases hnot with ⟨h0, h1, h2⟩
    by_cases h3 : c = Code.INVALID_ARGUMENT
    · subst h3
      simp [decisionTable, Code.INVALID_ARGUMENT, Code.OK, Code.UNAUTHENTICATED,
        Code.PERMISSION_DENIED] at hcode
    · simp [decisionTable, h0, h1, h2, h3] at hcode

/-- C1, run on the sample service: the second chain is the first to accept the request and
its processor answers INVALID_ARGUMENT. -/
theorem Check_outcome_code_mapping_witness :
    (Check sampleHelpers (sampleRequest "web.example" "/x")
        (Machine.enter sampleService 0 0)).1
      = Except.ok ⟨StatusCode.INVALID_ARGUMENT, "invalid request"⟩ :=
  (Check_outcome_code_mapping sampleHelpers sampleService (sampleRequest "web.example" "/x")
    0 0 "/x"
    [hostChain "api" "api.example" (sampleFilter Code.OK) (Except.ok ())] []
    (hostChain "web" "web.example" (sampleFilter Code.INVALID_ARGUMENT) (Except.ok ()))
    (sampleFilter Code.INVALID_ARGUMENT) 1 1 1 Code.INVALID_ARGUMENT
    rfl rfl rfl (by intro x hx; simp at hx; subst hx; rfl) rfl rfl rfl).2.1 rfl

/-- C3. When the path is extracted and `TriggerRuleMatchesPath` does not accept it, `Check`
returns grpc OK whatever the configured chains are, and the only calls it makes are the
path extraction and the trigger matcher: no `Matches`, `New` or `Process` of any chain.
The response and the chain-scoped state are as on entry. -/
theorem Check_trigger_gate_bypass (helpers : Helpers Cfg) (self : AuthServiceImpl Cfg Resp W)
    (request : CheckRequest) (response : Resp) (world : W) (path : String)
    (hpath : helpers.Path request.path = Except.ok path)
    (htrig : helpers.TriggerRuleMatchesPath path self.trigger_rules_config_ = Except.ok false) :
    (Check helpers request (Machine.enter self response world)).1 = Except.ok Status.OK
    ∧ (Check helpers request (Machine.enter self response world)).2.calls
        = [⟨Callee.Path, none⟩, ⟨Callee.TriggerRuleMatchesPath, none⟩]
    ∧ (∀ ev ∈ (Check helpers request (Machine.enter self response world)).2.calls,
        ev.callee.isChainCall = false)
    ∧ (Check helpers request (Machine.enter self response world)).2.response = response
    ∧ (Check helpers request (Machine.enter self response world)).2.world = world := by
  rw [Check_gate_stop helpers request (Machine.enter self response world) path hpath htrig]
  simp [Machine.enter, Callee.isChainCall]

/-- C3, run on the service with a trigger rule for `/login`: a request for `/public` is
allowed without asking either chain, although both would accept it. -/
theorem Check_trigger_gate_bypass_witness :
    (Check sampleHelpers (sampleRequest "any.example" "/public")
        (Machine.enter overlappingService 0 0)).1 = Except.ok Status.OK
    ∧ (Check sampleHelpers (sampleRequest "any.example" "/public")
        (Machine.enter overlappingService 0 0)).2.calls
      = [⟨Callee.Path, none⟩, ⟨Callee.TriggerRuleMatchesPath, none⟩] :=
  have h := Check_trigger_gate_bypass sampleHelpers overlappingService
    (sampleRequest "any.example" "/public") 0 0 "/public" rfl rfl
  ⟨h.1, h.2.1⟩

/-- C4. When the request passes the trigger-rule gate and no configured chain accepts it
(the chain list may be empty), `Check` returns grpc OK and calls neither `New` nor
`Process` on any chain: after the gate it only asks every chain `Matches`, in order.  The
response is as on entry. -/
theorem Check_no_chain_matches (helpers : Helpers Cfg) (self : AuthServiceImpl Cfg Resp W)
    (request : CheckRequest) (response : Resp) (world : W) (path : String)
    (hpath : helpers.Path request.path = Except.ok path)
    (htrig : helpers.TriggerRuleMatchesPath path self.trigger_rules_config_ = Except.ok true)
    (hno : ∀ chain ∈ self.chains_, chain.Matches request = Except.ok false) :
    (Check helpers request (Machine.enter self response world)).1 = Except.ok Status.OK
    ∧ (∀ ev ∈ (Check helpers request (Machine.enter self response world)).2.calls,
        ev.callee.isNewOrProcess = false)
    ∧ (Check helpers request (Machine.enter self response world)).2.calls
        = [⟨Callee.Path, none⟩, ⟨Callee.TriggerRuleMatchesPath, none⟩]
          ++ (List.range self.chains_.length).map (fun j => ⟨Callee.Matches j, none⟩)
    ∧ (Check helpers request (Machine.enter self response world)).2.response = response := by
  rw [Check_no_match helpers request (Machine.enter self response world) path hpath htrig hno]
  refine ⟨rfl, ?_, ?_, rfl⟩
  · intro ev hev
    simp [Machine.enter, matchesCalls] at hev
    rcases hev with hev | hev | ⟨j, _, hev⟩
    · simp [hev, Callee.isNewOrProcess]
    · simp [hev, Callee.isNewOrProcess]
    · simp [← hev, Callee.isNewOrProcess]
  · simp [Machine.enter, matchesCalls]

/-- C4, run on the sample service: a request for a host no chain is configured for is
allowed, and no processor is created. -/
theorem Check_no_chain_matches_witness :
    (Check sampleHelpers (sampleRequest "other.example" "/public")
        (Machine.enter sampleService 0 0)).1 = Except.ok Status.OK
    ∧ (Check sampleHelpers (sampleRequest "other.example" "/public")
        (Machine.enter sampleService 0 0)).2.calls
      = [⟨Callee.Path, none⟩, ⟨Callee.TriggerRuleMatchesPath, none⟩,
          ⟨Callee.Matches 0, none⟩, ⟨Callee.Matches 1, none⟩] :=
  have h := Check_no_chain_matches sampleHelpers sampleService
    (sampleRequest "other.example" "/public") 0 0 "/public" rfl rfl
    (by intro chain hc; simp [sampleService] at hc; rcases hc with hc | hc <;> subst hc <;> rfl)
  ⟨h.1, h.2.2.1⟩

/-! ## Exceptions -/

/-- C5. Whenever a call `Check` makes to `Matches` or `New` of a chain, or to `Process` of
a processor, raises (a `std::exception` or any other value), `Check` itself returns
normally, with grpc INTERNAL and message "internal error". -/
theorem Check_chain_exception_internal (helpers : Helpers Cfg)
    (self : AuthServiceImpl Cfg Resp W) (request : CheckRequest) (response : Resp) (world : W)
    (ev : Event)
    (hcall : ev ∈ (Check helpers request (Machine.enter self response world)).2.calls)
    (_hchain : ev.callee.isChainCall = true)
    (hraised : ev.thrown ≠ none) :
    (Check helpers request (Machine.enter self response world)).1
      = Except.ok ⟨StatusCode.INTERNAL, "internal error"⟩ :=
  Check_raised helpers request (Machine.enter self response world)
    (by intro x hx; simp [Machine.enter] at hx) ev hcall hraised

/-- C5, run on the faulty service: `Process` of the first chain raises a value that is not
a `std::exception`, and `Check` answers INTERNAL. -/
theorem Check_chain_exception_internal_witness :
    (⟨Callee.Process 0, some Thrown.unknown⟩ : Event)
        ∈ (Check sampleHelpers (sampleRequest "api.example" "/x")
            (Machine.enter faultyService 0 0)).2.calls
    ∧ (Check sampleHelpers (sampleRequest "api.example" "/x")
        (Machine.enter faultyService 0 0)).1
      = Except.ok ⟨StatusCode.INTERNAL, "internal error"⟩ :=
  ⟨by decide,
    Check_chain_exception_internal sampleHelpers faultyService
      (sampleRequest "api.example" "/x") 0 0 ⟨Callee.Process 0, some Thrown.unknown⟩
      (by decide) rfl (by decide)⟩

/-- C9. When path extraction raises, `Check` returns grpc INTERNAL "internal error"
whatever the trigger rules and the chains are, and the path extraction is the only call it
made: the trigger matcher is not called, and no `Matches`, `New` or `Process` of any chain.
The response and the chain-scoped state are as on entry. -/
theorem Check_path_extraction_failure (helpers : Helpers Cfg)
    (self : AuthServiceImpl Cfg Resp W) (request : CheckRequest) (response : Resp) (world : W)
    (e : Thrown) (hpath : helpers.Path request.path = Except.error e) :
    (Check helpers request (Machine.enter self response world)).1
        = Except.ok ⟨StatusCode.INTERNAL, "internal error"⟩
    ∧ (Check helpers request (Machine.enter self response world)).2.calls
        = [⟨Callee.Path, some e⟩]
    ∧ (∀ ev ∈ (Check helpers request (Machine.enter self response world)).2.calls,
        ev.callee ≠ Callee.TriggerRuleMatchesPath ∧ ev.callee.isChainCall = false)
    ∧ (Check helpers request (Machine.enter self response world)).2.response = response
    ∧ (Check helpers request (Machine.enter self response world)).2.world = world := by
  rw [Check_path_raises helpers request (Machine.enter self response world) e hpath]
  simp [Machine.enter, Callee.isChainCall]

/-- C9, run on the sample service with an empty target: no trigger rule is configured and
both chains are in place, yet the answer is INTERNAL and nothing but the extraction ran. -/
theorem Check_path_extraction_failure_witness :
    (Check sampleHelpers (sampleRequest "api.example" "")
        (Machine.enter sampleService 0 0)).1
      = Except.ok ⟨StatusCode.INTERNAL, "internal error"⟩
    ∧ (Check sampleHelpers (sampleRequest "api.example" "")
        (Machine.enter sampleService 0 0)).2.calls
      = [⟨Callee.Path, some (Thrown.exception "malformed target")⟩] :=
  have h := Check_path_extraction_failure sampleHelpers sampleService
    (sampleRequest "api.example" "") 0 0 (Thrown.exception "malformed target") rfl
  ⟨h.1, h.2.1⟩

/-! ## Periodic cleanup -/

/-- C8 fails as stated.  On the faulty service the hook of the first chain raises; the hook
of the second chain is then never called, and `AuthServiceImpl::DoPeriodicCleanup` does not
return normally: the exception leaves it. -/
theorem DoPeriodicCleanup_raise_not_isolated :
    (DoPeriodicCleanup (Machine.enter faultyService 0 3)).1
      = Except.error (Abort.thrown (Thrown.exception "session store unreachable"))
    ∧ (DoPeriodicCleanup (Machine.enter faultyService 0 3)).2.calls
      = [⟨Callee.DoPeriodicCleanup 0, some (Thrown.exception "session store unreachable")⟩]
    ∧ ¬ ∃ ev ∈ (DoPeriodicCleanup (Machine.enter faultyService 0 3)).2.calls,
        ev.callee = Callee.DoPeriodicCleanup 1 :=
  ⟨rfl, by decide, by decide⟩

/-- C8, amended.  When the cleanup hook of the chain at position `i` raises `e` during
`AuthServiceImpl::DoPeriodicCleanup`, the exception leaves
`AuthServiceImpl::DoPeriodicCleanup`, and the hooks that were called are those of the
chains at positions 0 to `i`, once each and in order: no hook of a chain after `i` is
called. -/
theorem DoPeriodicCleanup_raise_propagates (self : AuthServiceImpl Cfg Resp W)
    (response : Resp) (world : W) (i : Nat) (e : Thrown)
    (hraise : (⟨Callee.DoPeriodicCleanup i, some e⟩ : Event)
      ∈ (DoPeriodicCleanup (Machine.enter self response world)).2.calls) :
    (DoPeriodicCleanup (Machine.enter self response world)).1 = Except.error (Abort.thrown e)
    ∧ i < self.chains_.length
    ∧ (DoPeriodicCleanup (Machine.enter self response world)).2.calls
        = (List.range i).map (fun j => ⟨Callee.DoPeriodicCleanup j, none⟩)
          ++ [⟨Callee.DoPeriodicCleanup i, some e⟩]
    ∧ (∀ ev ∈ (DoPeriodicCleanup (Machine.enter self response world)).2.calls,
        ∀ j, ev.callee = Callee.DoPeriodicCleanup j → j ≤ i) := by
  rw [DoPeriodicCleanup_run] at hraise ⊢
  rcases cleanup_loop_cases (Machine.enter self response world).self.chains_ 0
    (Machine.enter self response world) with ⟨_, h2⟩ | ⟨k, e1, hk, h1, h2⟩
  · rw [h2] at hraise
    simp only [Machine.enter, List.nil_append] at hraise
    have := cleanupCalls_thrown 0 _ _ hraise
    simp at this
  · rw [h2] at hraise
    simp only [Machine.enter, List.nil_append, List.mem_append, List.mem_singleton] at hraise
    have hke : i = k ∧ e = e1 := by
      rcases hraise with hraise | hraise
      · have := cleanupCalls_thrown 0 _ _ hraise
        simp at this
      · simpa using hraise
    rcases hke with ⟨rfl, rfl⟩
    have hcalls : (DoPeriodicCleanup.loop 0 (Machine.enter self response world).self.chains_
        (Machine.enter self response world)).2.calls
        = (List.range i).map (fun j => ⟨Callee.DoPeriodicCleanup j, none⟩)
          ++ [⟨Callee.DoPeriodicCleanup i, some e⟩] := by
      rw [h2]
      simp [Machine.enter, cleanupCalls]
    refine ⟨h1, by simpa [Machine.enter] using hk, hcalls, ?_⟩
    intro ev hev j hj
    rw [hcalls] at hev
    simp at hev
    rcases hev with ⟨a, ha, rfl⟩ | rfl
    · simp at hj
      omega
    · simp at hj
      omega

/-- C8 amended, run on the faulty service: the hook of the first chain raises and the
exception comes out of `AuthServiceImpl::DoPeriodicCleanup`. -/
theorem DoPeriodicCleanup_raise_propagates_witness :
    (DoPeriodicCleanup (Machine.enter faultyService 0 3)).1
      = Except.error (Abort.thrown (Thrown.exception "session store unreachable")) :=
  (DoPeriodicCleanup_raise_propagates faultyService 0 3 0
    (Thrown.exception "session store unreachable") (by decide)).1

/-! ## Frame -/

/-- C10. `Check` leaves the response of the caller as it was on entry when the trigger rules do
not select the path, and when the request passes the gate but no chain accepts it.  On
every path the response it leaves is either the one it was given or the one left by
`Process` of the processor of the first chain accepting the request, called on the response
as given; and the dispatcher (trigger-rule configuration and chain list) is unchanged. -/
theorem Check_frame (helpers : Helpers Cfg) (self : AuthServiceImpl Cfg Resp W)
    (request : CheckRequest) (response : Resp) (world : W) :
    (∀ path, helpers.Path request.path = Except.ok path →
        helpers.TriggerRuleMatchesPath path self.trigger_rules_config_ = Except.ok false →
        (Check helpers request (Machine.enter self response world)).2.response = response)
    ∧ (∀ path, helpers.Path request.path = Except.ok path →
        helpers.TriggerRuleMatchesPath path self.trigger_rules_config_ = Except.ok true →
        (∀ chain ∈ self.chains_, chain.Matches request = Except.ok false) →
        (Check helpers request (Machine.enter self response world)).2.response = response)
    ∧ ((Check helpers request (Machine.enter self response world)).2.response = response
        ∨ ∃ pre chain post processor w1,
            self.chains_ = pre ++ chain :: post
            ∧ (∀ x ∈ pre, x.Matches request = Except.ok false)
            ∧ chain.Matches request = Except.ok true
            ∧ chain.New world = (Except.ok (some processor), w1)
            ∧ (Check helpers request (Machine.enter self response world)).2.response
                = (processor.Process request response w1).2.1)
    ∧ (Check helpers request (Machine.enter self response world)).2.self = self := by
  refine ⟨?_, ?_, ?_, ?_⟩
  · intro path hpath htrig
    rw [Check_gate_stop helpers request (Machine.enter self response world) path hpath htrig]
    rfl
  · intro path hpath htrig hno
    rw [Check_no_match helpers request (Machine.enter self response world) path hpath htrig hno]
    rfl
  · rcases Check_cases helpers request (Machine.enter self response world)
      with ⟨e, h⟩ | ⟨e, h⟩ | h | h
    · left; rw [h]; rfl
    · left; rw [h]; rfl
    · left; rw [h]; rfl
    · rw [h, (finish_calls request _).2.1]
      simpa [Machine.enter, Machine.gated] using
        findChain_origin request self.chains_ 0 (Machine.enter self response world).gated
  · rcases Check_cases helpers request (Machine.enter self response world)
      with ⟨e, h⟩ | ⟨e, h⟩ | h | h
    · rw [h]; rfl
    · rw [h]; rfl
    · rw [h]; rfl
    · rw [h, (finish_calls request _).2.2.2, findChain_self]
      rfl

/-- C10, run on the sample service: a request no chain accepts leaves the response, here
holding 7 headers, as it was. -/
theorem Check_frame_witness :
    (Check sampleHelpers (sampleRequest "other.example" "/public")
        (Machine.enter sampleService 7 0)).2.response = 7 :=
  (Check_frame sampleHelpers sampleService (sampleRequest "other.example" "/public") 7 0).2.1
    "/public" rfl rfl
    (by intro chain hc; simp [sampleService] at hc; rcases hc with hc | hc <;> subst hc <;> rfl)

end authservice
